import Mathlib

set_option maxRecDepth 16384

/-!
Verification of the FlatBuffers Lua code-generation backend
(`src/idl_gen_lua.cpp`).  The generator is a pure transformation from an
already-parsed schema AST to Lua source text, so the shallow embedding
below mirrors each `code +=` step of the C++ emitter as a Lean function
from the schema model to `String`.  Theorems state properties of the
emitted text and of the pure slot/name arithmetic the emitter uses.
-/

/-! ## Source-file constants (idl_gen_lua.cpp lines 33-41) -/

/-- Source constant `Indent` (four spaces per indentation level). -/
def Indent : String := "    "

/-- Source constant `End` (closes a Lua block). -/
def EndKw : String := "end\n"

/-- Source constant `EndFunc` (closes a Lua function). -/
def EndFunc : String := "end\n"

/-- Source constant `SelfData`. -/
def SelfData : String := "self.view"

/-- Source constant `SelfDataPos`. -/
def SelfDataPos : String := "self.view.pos"

/-- Source constant `SelfDataBytes`. -/
def SelfDataBytes : String := "self.view.bytes"

/-! ## Schema data model

The schema AST consumed by the generator (`StructDef`, `FieldDef`, `Type`,
`EnumDef`, `EnumVal` from the upstream parser).  Only the parts the Lua
backend reads are modelled.  Following the source, a type is tagged as
scalar kind, string, vector, struct reference or union reference, a field
carries its resolved offset/slot, default constant, deprecation flag and
padding, and a struct definition carries `fixed`, its ordered fields,
`bytesize` and `minalign`. -/

/-- The scalar base types of the schema (`BASE_TYPE_UTYPE` .. `BASE_TYPE_DOUBLE`). -/
inductive ScalarKind : Type where
  | utype | boolT | int8 | uint8 | int16 | uint16
  | int32 | uint32 | int64 | uint64 | float32 | float64
deriving DecidableEq, Repr

/-- One enum member: its name, integer value, and (for union enums) the
shape of its payload arm: whether the arm is a string, and the
namespace-qualified name of the arm type (`GetFullyQualifiedName`, an
external helper of the parser, is modelled as a stored string). -/
structure EnumVal where
  name : String
  value : Int
  armIsString : Bool
  armQName : String
deriving Repr, DecidableEq

/-- An enum definition: name, namespace-qualified name (modelled as a
stored string, computed upstream), union flag and ordered values. -/
structure EnumDefM where
  name : String
  qname : String
  isUnion : Bool
  vals : List EnumVal
deriving Repr

mutual

/-- A resolved schema type, as the generator dispatches on
`type.base_type`: a scalar kind (with the optional `enum_def` reference
used for default-value rendering), string, vector of an element type, a
struct/table reference, or a union reference. -/
inductive LuaType : Type where
  | scalar (k : ScalarKind) (ed : Option EnumDefM)
  | stringT
  | vector (elem : LuaType)
  | structT (sd : SDef)
  | unionT (ed : EnumDefM)

/-- `FieldDef`: name, type, `value.offset` (byte offset in a fixed struct,
vtable slot offset in a table), `value.constant` (default, string form),
the deprecation flag and precomputed `padding`. -/
inductive FDef : Type where
  | mk (name : String) (ty : LuaType) (offset : Nat) (constant : String)
       (deprecated : Bool) (padding : Nat)

/-- The ordered field list of a struct definition (a first-order list so
that the mutual recursion of the builder emitters stays structural). -/
inductive FList : Type where
  | nil
  | cons (f : FDef) (fs : FList)

/-- `StructDef`: name, namespace-qualified name (modelled, computed
upstream), `fixed` (inline struct vs relocatable table), ordered fields,
`bytesize` and `minalign`. -/
inductive SDef : Type where
  | mk (name : String) (qname : String) (fixed : Bool) (fields : FList)
       (bytesize : Nat) (minalign : Nat)

end

/-- Field name projection. -/
def FDef.name : FDef → String
  | .mk n _ _ _ _ _ => n

/-- Field type projection. -/
def FDef.ty : FDef → LuaType
  | .mk _ t _ _ _ _ => t

/-- Field offset/slot projection (`field.value.offset`). -/
def FDef.offset : FDef → Nat
  | .mk _ _ o _ _ _ => o

/-- Field default-constant projection (`field.value.constant`). -/
def FDef.constant : FDef → String
  | .mk _ _ _ c _ _ => c

/-- Field deprecation flag projection. -/
def FDef.deprecated : FDef → Bool
  | .mk _ _ _ _ d _ => d

/-- Field padding projection. -/
def FDef.padding : FDef → Nat
  | .mk _ _ _ _ _ p => p

/-- Struct name projection. -/
def SDef.name : SDef → String
  | .mk n _ _ _ _ _ => n

/-- Struct qualified-name projection. -/
def SDef.qname : SDef → String
  | .mk _ q _ _ _ _ => q

/-- Struct `fixed` projection. -/
def SDef.fixed : SDef → Bool
  | .mk _ _ fx _ _ _ => fx

/-- Struct field-list projection. -/
def SDef.fields : SDef → FList
  | .mk _ _ _ fs _ _ => fs

/-- Struct `bytesize` projection. -/
def SDef.bytesize : SDef → Nat
  | .mk _ _ _ _ bs _ => bs

/-- Struct `minalign` projection. -/
def SDef.minalign : SDef → Nat
  | .mk _ _ _ _ _ ma => ma

/-- Convert the first-order field list to a `List`. -/
def FList.toList : FList → List FDef
  | .nil => []
  | .cons f fs => f :: fs.toList

/-- Build the first-order field list from a `List`. -/
def FList.ofList : List FDef → FList
  | [] => .nil
  | f :: fs => .cons f (FList.ofList fs)

/-- The declared fields of a struct definition as a `List`. -/
def SDef.fieldsList (sd : SDef) : List FDef := sd.fields.toList

/-! ## External helpers of the surrounding toolchain

These functions live in the flatbuffers utility/idl headers, outside this
backend's source file; they are modelled here after their documented
behaviour (the spec treats them as already-computed inputs). -/

/-- Modelled from the spec: upstream `MakeCamel` tail loop — an
underscore followed by a character is replaced by the upper-cased
character, all else is copied. -/
def camelRest : List Char → List Char
  | [] => []
  | '_' :: c :: rest => c.toUpper :: camelRest rest
  | c :: rest => c :: camelRest rest

/-- Modelled from the spec: upstream `MakeCamel(in, first)` — when
`first` is set the leading character is upper-cased, the rest is
processed by the underscore-collapsing loop. -/
def makeCamel (s : String) (first : Bool) : String :=
  match s.data, first with
  | [], _ => String.mk []
  | c :: rest, true => String.mk (c.toUpper :: camelRest rest)
  | l, false => String.mk (camelRest l)

/-- Modelled from the spec: upstream `IsScalar(base_type)` — true for
the scalar base-type range. -/
def isScalarTy : LuaType → Bool
  | .scalar _ _ => true
  | _ => false

/-- Modelled from the spec: upstream `IsStruct(type)` — a struct
reference whose target is `fixed`. -/
def isStructTy : LuaType → Bool
  | .structT sd => sd.fixed
  | _ => false

/-- Modelled from the spec: byte size of each scalar kind (`SizeOf`). -/
def scalarSize : ScalarKind → Nat
  | .utype => 1 | .boolT => 1 | .int8 => 1 | .uint8 => 1
  | .int16 => 2 | .uint16 => 2 | .int32 => 4 | .uint32 => 4
  | .int64 => 8 | .uint64 => 8 | .float32 => 4 | .float64 => 8

/-- Modelled from the spec: upstream `InlineSize` — scalars take their
own size, fixed structs their `bytesize`, all relocatable values an
offset slot of four bytes. -/
def InlineSize : LuaType → Nat
  | .scalar k _ => scalarSize k
  | .structT sd => if sd.fixed then sd.bytesize else 4
  | _ => 4

/-- Modelled from the spec: upstream `InlineAlignment` — fixed structs
align to their `minalign`, scalars to their size, relocatable values to
the four-byte offset. -/
def InlineAlignment : LuaType → Nat
  | .scalar k _ => scalarSize k
  | .structT sd => if sd.fixed then sd.minalign else 4
  | _ => 4

/-- Modelled from the spec: the `PTYPE` column of the upstream base-type
table (`ctypename`), the runtime primitive name of each scalar kind. -/
def scalarPType : ScalarKind → String
  | .utype => "uint8" | .boolT => "bool" | .int8 => "int8" | .uint8 => "uint8"
  | .int16 => "int16" | .uint16 => "uint16" | .int32 => "int32"
  | .uint32 => "uint32" | .int64 => "int64" | .uint64 => "uint64"
  | .float32 => "float32" | .float64 => "float64"

/-! ## NameResolver (source lines 49-54, 80-94) -/

/-- The fixed Lua reserved-word set inserted by the constructor
(source lines 49-54). -/
def luaKeywords : List String :=
  ["and", "break", "do", "else", "elseif", "end", "false", "for",
   "function", "goto", "if", "in", "local", "nil", "not", "or",
   "repeat", "return", "then", "true", "until", "while"]

/-- Source `EscapeKeyword` (line 80): a reserved word gains a leading
underscore, any other name passes through unchanged. -/
def escapeKeyword (name : String) : String :=
  if name ∈ luaKeywords then "_" ++ name else name

/-- Source `NormalizedName` over a definition or field name. -/
def normalizedName (name : String) : String := escapeKeyword name

/-- Source `NormalizedMetaName`: the escaped name suffixed `_mt`. -/
def normalizedMetaName (sd : SDef) : String := escapeKeyword sd.name ++ "_mt"

/-! ## Infix search on strings (used to state claims about emitted text) -/

/-- Whether `p` is a prefix of `s` (on character lists). -/
def listPrefixOf (p s : List Char) : Bool :=
  match p, s with
  | [], _ => true
  | _ :: _, [] => false
  | a :: p, b :: s => a == b && listPrefixOf p s

/-- Whether `p` occurs contiguously inside `s` (on character lists). -/
def listInfixOf (p s : List Char) : Bool :=
  listPrefixOf p s || match s with
    | [] => false
    | _ :: t => listInfixOf p t

/-- Whether the string `pat` occurs contiguously inside `s`. -/
def strContains (s pat : String) : Bool := listInfixOf pat.data s.data

/-! ## TypeMapper (source lines 1146-1224) -/

/-- Source `GenTypeBasic`: the `PTYPE` runtime name from the base-type
table (looked up by `type.base_type`; non-scalar rows all map to the
offset primitive name). -/
def genTypeBasic : LuaType → String
  | .scalar k _ => scalarPType k
  | _ => "string"

/-- Source `GenTypeGet` (with `GenTypePointer` inlined): scalars map to
their runtime primitive name, strings to `string`, vectors to their
element's name, struct references to the struct's name, unions to the
generic table pointer name. -/
def genTypeGet : LuaType → String
  | .scalar k _ => scalarPType k
  | .stringT => "string"
  | .vector e => genTypeGet e
  | .structT sd => sd.name
  | .unionT _ => "*flatbuffers.Table"

/-- Source `Type::VectorType()`: the element type of a vector. -/
def vectorTypeOf : LuaType → LuaType
  | .vector e => e
  | t => t

/-- Source `GenGetter` (line 1146): the runtime read primitive for a
type — `String(` for strings, `Union(` for unions, the element's getter
for vectors, and a typed `Get(flatbuffers.N.<Type>, ` for the rest. -/
def genGetter : LuaType → String
  | .stringT => SelfData ++ ":String("
  | .unionT _ => SelfData ++ ":Union("
  | .vector e => genGetter e
  | t => SelfData ++ ":Get(flatbuffers.N." ++ makeCamel (genTypeGet t) true ++ ", "

/-- Whether a type is the boolean scalar (`base_type == BASE_TYPE_BOOL`). -/
def isBoolTy : LuaType → Bool
  | .scalar .boolT _ => true
  | _ => false

/-- Whether a type is a vector. -/
def isVectorTy : LuaType → Bool
  | .vector _ => true
  | _ => false

/-- Whether a type is a union. -/
def isUnionTy : LuaType → Bool
  | .unionT _ => true
  | _ => false

/-- Source `GenMethod`, keyed on the field's type: scalars use their
camel-cased primitive name, fixed structs `Struct`, everything else
`UOffsetTRelative`. -/
def genMethodTy (t : LuaType) : String :=
  if isScalarTy t then makeCamel (genTypeBasic t) true
  else if isStructTy t then "Struct" else "UOffsetTRelative"

/-- Source `GenMethod(field)`. -/
def genMethod (f : FDef) : String := genMethodTy f.ty

/-- The `enum_def` reference carried by a type (for vectors, the
element's reference, as in the upstream `Type`). -/
def typeEnumDef : LuaType → Option EnumDefM
  | .scalar _ ed => ed
  | .unionT ed => some ed
  | .vector e => typeEnumDef e
  | _ => none

/-- Source `GetNamespace(type)`: the fully qualified name of the
referenced struct, else of the referenced enum, else empty. -/
def getNamespaceTy : LuaType → String
  | .structT sd => sd.qname
  | .unionT ed => ed.qname
  | .vector e => getNamespaceTy e
  | .scalar _ (some ed) => ed.qname
  | .scalar _ none => ""
  | .stringT => ""

/-- Source `TypeNameWithNamespace(field)`. -/
def typeNameWithNamespace (f : FDef) : String := getNamespaceTy f.ty

/-- Source `GenEnumDefaultValue`: render the enum member whose value
matches the constant as a qualified name, else the raw constant. -/
def genEnumDefaultValue (f : FDef) : String :=
  match typeEnumDef f.ty with
  | some ed =>
    match ed.vals.find? (fun ev => toString ev.value == f.constant) with
    | some ev => ed.qname ++ "." ++ ev.name
    | none => f.constant
  | none => f.constant

/-- Source `GenDefaultValue(field, enableLangOverrides)`: enum-typed
(non-union) fields render via the enum lookup; booleans render
`false`/`true` keyed on whether the constant is `"0"`; all other scalars
render the raw constant. -/
def genDefaultValue (f : FDef) (enableLangOverrides : Bool) : String :=
  if enableLangOverrides && (typeEnumDef f.ty).isSome && !(isUnionTy f.ty) then
    genEnumDefaultValue f
  else match f.ty with
    | .scalar .boolT _ => if f.constant = "0" then "false" else "true"
    | _ => f.constant

/-! ## AccessorEmitter (source lines 57-339) -/

/-- Source `OffsetPrefix` (line 59): the vtable presence test every
table-field accessor starts with — look up the field's slot offset and
guard the decode under `if o ~= 0 then`. -/
def offsetPrefixStr (f : FDef) : String :=
  Indent ++ "local o = " ++ SelfData ++ ":Offset(" ++ toString f.offset ++ ")\n"
  ++ Indent ++ "if o ~= 0 then\n"

/-- Source `GenReceiver` (line 468). -/
def genReceiver (sd : SDef) : String :=
  "function " ++ normalizedMetaName sd ++ ":"

/-- Source `GetScalarFieldOfStruct` (line 166): a fixed-struct scalar is
always present, read directly at `pos + offset` with no presence test. -/
def getScalarFieldOfStruct (sd : SDef) (f : FDef) : String :=
  genReceiver sd ++ makeCamel (normalizedName f.name) true ++ "()\n"
  ++ Indent ++ "return " ++ genGetter f.ty
  ++ SelfDataPos ++ " + " ++ toString f.offset ++ ")\n"
  ++ EndFunc

/-- Source `GetScalarFieldOfTable` (line 180): presence test, then read
(with booleans wrapped in a `~= 0` comparison), else fall back to the
schema default constant (booleans render `false` exactly when the
constant is `"0"`, else `true`). -/
def getScalarFieldOfTable (sd : SDef) (f : FDef) : String :=
  let getter0 := genGetter f.ty ++ "o + " ++ SelfDataPos ++ ")"
  let getter := if isBoolTy f.ty then "(" ++ getter0 ++ " ~= 0)" else getter0
  let defaultValue :=
    if isBoolTy f.ty then (if f.constant = "0" then "false" else "true")
    else f.constant
  genReceiver sd ++ makeCamel (normalizedName f.name) true ++ "()\n"
  ++ offsetPrefixStr f
  ++ Indent ++ Indent ++ "return " ++ getter ++ "\n"
  ++ Indent ++ EndKw
  ++ Indent ++ "return " ++ defaultValue ++ "\n"
  ++ EndFunc

/-- Source `GetStringField` (line 244): presence test, then the string
decode; after the guard the function body simply ends (the generated Lua
function falls through without a return statement when the field is
absent). -/
def getStringField (sd : SDef) (f : FDef) : String :=
  genReceiver sd ++ makeCamel (normalizedName f.name) true ++ "()\n"
  ++ offsetPrefixStr f
  ++ Indent ++ Indent ++ "return " ++ genGetter f.ty
  ++ "o + " ++ SelfDataPos ++ ")\n"
  ++ Indent ++ EndKw
  ++ EndFunc

/-- Source `GetMemberOfVectorOfNonStruct` (line 316): presence test,
element read at `a + (j-1)*stride`, and an absent-case fallback of `''`
for string elements, `0` otherwise. -/
def getMemberOfVectorOfNonStruct (sd : SDef) (f : FDef) : String :=
  genReceiver sd ++ makeCamel (normalizedName f.name) true ++ "(j)\n"
  ++ offsetPrefixStr f
  ++ Indent ++ Indent ++ "local a = " ++ SelfData ++ ":Vector(o)\n"
  ++ Indent ++ Indent
  ++ "return " ++ genGetter f.ty
  ++ "a + ((j-1) * " ++ toString (InlineSize (vectorTypeOf f.ty)) ++ "))\n"
  ++ Indent ++ EndKw
  ++ (match vectorTypeOf f.ty with
      | .stringT => Indent ++ "return \x27\x27\n"
      | _ => Indent ++ "return 0\n")
  ++ EndFunc

/-! ## BuilderEmitter: fixed structs (source lines 341-408, 1227-1234) -/

/-- Source `BeginBuilderArgs` (line 342). -/
def beginBuilderArgs (sd : SDef) : String :=
  "function " ++ normalizedName sd.name ++ ".Create" ++ normalizedName sd.name
  ++ "(builder"

/-- Source `StructBuilderArgs` (line 352), recursing over the field
list: a nested fixed struct contributes its own arguments with the field
name (plus `_`) appended to the accumulated name prefix; any other field
contributes one `, <prefix><camelName>` argument. -/
def structBuilderArgsFL : FList → String → String
  | .nil, _ => ""
  | .cons (.mk n ty _ _ _ _) fs, pre =>
    (match ty with
     | .structT (.mk _ _ true sfs _ _) =>
         structBuilderArgsFL sfs (pre ++ normalizedName n ++ "_")
     | _ => ", " ++ pre ++ makeCamel (normalizedName n) false)
    ++ structBuilderArgsFL fs pre

/-- `StructBuilderArgs` entry point on a struct definition. -/
def structBuilderArgsSD (sd : SDef) (pre : String) : String :=
  structBuilderArgsFL sd.fields pre

/-- Source `StructBuilderBody` field loop (line 386): the fields are
visited in reverse declared order (`rbegin..rend`); each field first
emits its `Pad` when its precomputed padding is nonzero, then either the
nested struct's `Prep` plus its own (reversed) body under the extended
name prefix, or a single `Prepend<Method>` of the flattened argument. -/
def structBuilderBodyFL : FList → String → String
  | .nil, _ => ""
  | .cons (.mk n ty _ _ _ pad) fs, pre =>
    structBuilderBodyFL fs pre
    ++ (if pad ≠ 0 then Indent ++ "builder:Pad(" ++ toString pad ++ ")\n" else "")
    ++ (match ty with
        | .structT (.mk _ _ true sfs sbs sma) =>
            Indent ++ "builder:Prep(" ++ toString sma ++ ", " ++ toString sbs ++ ")\n"
            ++ structBuilderBodyFL sfs (pre ++ normalizedName n ++ "_")
        | _ =>
            Indent ++ "builder:Prepend" ++ genMethodTy ty ++ "("
            ++ pre ++ makeCamel (normalizedName n) false ++ ")\n")

/-- Source `StructBuilderBody` (line 380): `Prep(minalign, bytesize)`
for the struct itself, then the reversed field loop. -/
def structBuilderBodySD (sd : SDef) (pre : String) : String :=
  Indent ++ "builder:Prep(" ++ toString sd.minalign ++ ", "
  ++ toString sd.bytesize ++ ")\n"
  ++ structBuilderBodyFL sd.fields pre

/-- Source `EndBuilderBody` (line 404). -/
def endBuilderBody : String :=
  Indent ++ "return builder:Offset()\n" ++ EndFunc

/-- Source `GenStructBuilder` (line 1227): signature, flattened
arguments, body, trailer. -/
def genStructBuilder (sd : SDef) : String :=
  beginBuilderArgs sd ++ structBuilderArgsSD sd "" ++ ")\n"
  ++ structBuilderBodySD sd "" ++ endBuilderBody

/-! ## BuilderEmitter: tables (source lines 410-530) -/

/-- Source `GetStartOfTable` (line 411): `StartObject` is passed the
size of the full declared field vector (deprecated fields included). -/
def getStartOfTable (sd : SDef) : String :=
  "function " ++ normalizedName sd.name ++ ".Start"
  ++ "(builder) " ++ "builder:StartObject("
  ++ toString sd.fieldsList.length ++ ") end\n"

/-- Source `BuildFieldOfTable` (line 421): one `Add<Field>` function,
parameterized by the slot index `offset` and the schema default. -/
def buildFieldOfTable (sd : SDef) (f : FDef) (offset : Nat) : String :=
  "function " ++ normalizedName sd.name ++ ".Add"
  ++ makeCamel (normalizedName f.name) true
  ++ "(builder, " ++ makeCamel (normalizedName f.name) false ++ ") "
  ++ "builder:Prepend" ++ genMethod f ++ "Slot("
  ++ toString offset ++ ", " ++ makeCamel (normalizedName f.name) false
  ++ ", " ++ f.constant ++ ") end\n"

/-- Source `BuildVectorOfTable` (line 445): `Start<Field>Vector` with
the element's inline size and alignment. -/
def buildVectorOfTable (sd : SDef) (f : FDef) : String :=
  "function " ++ normalizedName sd.name ++ ".Start"
  ++ makeCamel (normalizedName f.name) true
  ++ "Vector(builder, numElems) return builder:StartVector("
  ++ toString (InlineSize (vectorTypeOf f.ty))
  ++ ", numElems, " ++ toString (InlineAlignment (vectorTypeOf f.ty))
  ++ ") end\n"

/-- Source `GetEndOffsetOnTable` (line 460). -/
def getEndOffsetOnTable (sd : SDef) : String :=
  "function " ++ normalizedName sd.name ++ ".End"
  ++ "(builder) " ++ "return builder:EndObject() end\n"

/-- The field loop of source `GenTableBuilders` (line 517): walk the
declared fields with their positional index, skip deprecated fields, and
emit one `Add` (plus `Start<Field>Vector` for vectors) per remaining
field, passing the positional index as the slot. -/
def tableAddCalls (sd : SDef) : Nat → List FDef → String
  | _, [] => ""
  | i, f :: fs =>
    (if f.deprecated then "" else
      buildFieldOfTable sd f i
      ++ (if isVectorTy f.ty then buildVectorOfTable sd f else ""))
    ++ tableAddCalls sd (i + 1) fs

/-- Source `GenTableBuilders` (line 514). -/
def genTableBuilders (sd : SDef) : String :=
  getStartOfTable sd ++ tableAddCalls sd 0 sd.fieldsList ++ getEndOffsetOnTable sd

/-! ## ObjectAPIEmitter (source lines 572-1037) -/

/-- Concatenate a list of emitted snippets (the `code +=` loop). -/
def strJoin : List String → String
  | [] => ""
  | s :: l => s ++ strJoin l

/-- The pre-pack emission for one vector field inside source
`GenUnPackPack_ObjectAPI`'s Pack half (`case BASE_TYPE_VECTOR`, lines
707-794): scalar elements are prepended directly in reverse index order
inside the vector bracket; otherwise each element is first packed into
an offset array whose per-element expression is selected by the element
type — strings via `CreateString`, structs via the element type's
`Pack`, and every other element shape (unions included) emits the
literal `**not supported**` marker into the assignment for
`__<field>_array`. -/
def packVectorPre (className : String) (f : FDef) : String :=
  let camelName := makeCamel f.name true
  let lengthVar := "__" ++ f.name ++ "_length"
  Indent ++ "local _" ++ f.name ++ " = 0\n"
  ++ Indent ++ "if o." ++ camelName ++ "~= nil then\n"
  ++ Indent ++ Indent ++ "local " ++ lengthVar ++ " = #o." ++ camelName ++ "\n"
  ++ (if isScalarTy (vectorTypeOf f.ty) || isStructTy f.ty then
        Indent ++ Indent ++ className ++ ".Start" ++ f.name
        ++ "Vector(builder, " ++ lengthVar ++ ")\n"
        ++ Indent ++ Indent ++ "for _j = " ++ lengthVar ++ ", 1, -1 do\n"
        ++ Indent ++ Indent ++ Indent
        ++ (if isScalarTy (vectorTypeOf f.ty) then
              "builder:Prepend" ++ makeCamel (genTypeBasic (vectorTypeOf f.ty)) true
              ++ "(o." ++ camelName ++ "[_j])\n"
            else
              "builder:PrependStruct(" ++ makeCamel (genTypeGet f.ty) true
              ++ ".Pack(builder, o." ++ camelName ++ "[_j]))\n")
        ++ Indent ++ Indent ++ "end\n"
      else
        let offsetArrayVar := "__" ++ f.name ++ "_array"
        Indent ++ Indent ++ "local " ++ offsetArrayVar ++ " = \x7b\x7d\n"
        ++ Indent ++ Indent ++ "for i, v in ipairs(o." ++ camelName ++ ") do\n"
        ++ Indent ++ Indent ++ Indent ++ offsetArrayVar ++ "[i] = "
        ++ (match vectorTypeOf f.ty with
            | .stringT => "builder:CreateString(v)\n"
            | .structT _ => genTypeGet f.ty ++ ".Pack(builder, v)\n"
            | _ => "**not supported**\n")
        ++ Indent ++ Indent ++ "end\n"
        ++ Indent ++ Indent ++ className ++ ".Start" ++ f.name
        ++ "Vector(builder, " ++ lengthVar ++ ")\n"
        ++ Indent ++ Indent ++ "for _j = " ++ lengthVar ++ ", 1, -1 do\n"
        ++ Indent ++ Indent ++ Indent
        ++ "builder:PrependUOffsetTRelative(" ++ offsetArrayVar ++ "[_j]))\n"
        ++ Indent ++ Indent ++ "end\n")
  ++ Indent ++ Indent ++ "_" ++ f.name ++ " = builder:EndVector(" ++ lengthVar ++ ")\n"
  ++ Indent ++ "end\n\n"

/-- One field initializer of the object-API mirror constructor (source
`GenObjectDecl_ObjectAPI`, switch at line 1008): struct/table-valued
fields are set to `nil`, strings to `""`, vectors to `{}` (or `nil`
under `set_empty_vectors_to_null`), the hidden union-type scalar emits
nothing, union-valued fields are set to a required `.Union()`
constructor call, and all remaining scalars to their rendered default. -/
def objectDeclField (setEmptyVecNull : Bool) (f : FDef) : String :=
  let start := Indent ++ Indent ++ "this." ++ makeCamel f.name true ++ " = "
  match f.ty with
  | .structT _ => start ++ "nil\n"
  | .stringT => start ++ "\"\"\n"
  | .vector _ => start ++ (if setEmptyVecNull then "nil\n" else "\x7b\x7d\n")
  | .unionT _ =>
      start ++ "require(\x27" ++ typeNameWithNamespace f ++ "\x27).Union()\n"
  | .scalar .utype _ => ""
  | .scalar _ _ => start ++ genDefaultValue f true ++ "\n"

/-- Source `GenObjectDecl_ObjectAPI` (line 983): the `<Type>.T`
constructor table, initializing every non-deprecated field. -/
def genObjectDecl (setEmptyVecNull : Bool) (sd : SDef) : String :=
  normalizedName sd.name ++ ".T = \x7b\n"
  ++ Indent ++ "__ctor__ = function (this)\n"
  ++ strJoin
      ((sd.fieldsList.filter (fun f => !f.deprecated)).map
        (objectDeclField setEmptyVecNull))
  ++ Indent ++ "end\n"
  ++ "\x7d\n"

/-! ## EnumEmitter (source lines 96-108, 1075-1142) -/

/-- Source `EnumMember` (line 97). -/
def enumMember (ev : EnumVal) : String :=
  Indent ++ normalizedName ev.name ++ " = " ++ toString ev.value ++ ",\n"

/-- Source `GenEnum` member block (lines 1075-1087). -/
def genEnumBlock (e : EnumDefM) : String :=
  "local " ++ normalizedName e.name ++ " = \x7b\n"
  ++ strJoin (e.vals.map enumMember)
  ++ "\x7d\n"

/-- One entry of the union discriminant→decoder dispatch table (source
lines 1129-1133): a string arm maps to the Lua `string` type, any other
arm maps to a `require` of the arm's qualified type name. -/
def unionDispatchLine (ev : EnumVal) : String :=
  if ev.armIsString then
    "dataTypeToClass[" ++ toString ev.value ++ "] = string\n"
  else
    "dataTypeToClass[" ++ toString ev.value ++ "] = require(\x27"
    ++ ev.armQName ++ "\x27)\n"

/-- Source `GenEnumDef_ObjectAPI` (line 1094): nothing for non-union
enums; for unions, the dispatch table (skipping values equal to zero),
the `__dataTypeToClass` binding, and the `Union` container constructor
with `Type = 0`, `Value = nil`. -/
def genEnumDefObjectAPI (e : EnumDefM) : String :=
  if !e.isUnion then "" else
    "local dataTypeToClass = \x7b\x7d\n"
    ++ strJoin
        (e.vals.filterMap
          (fun ev => if ev.value = 0 then none else some (unionDispatchLine ev)))
    ++ makeCamel e.name true ++ ".__dataTypeToClass = dataTypeToClass\n\n"
    ++ makeCamel e.name true ++ ".Union = \x7b\n"
    ++ "\t__ctor = function (this)\n"
    ++ "\t\tthis.Type = 0\n"
    ++ "\t\tthis.Value = nil\n"
    ++ "\tend\n\x7d\n"

/-! ## Remaining accessors and the accessor dispatch (source lines 150-339, 473-511) -/

/-- Source `GetVectorLen` (line 151): same presence test as the base
field, `VectorLen` when present, `0` when absent. -/
def getVectorLen (sd : SDef) (f : FDef) : String :=
  genReceiver sd ++ makeCamel (normalizedName f.name) true ++ "Length()\n"
  ++ offsetPrefixStr f
  ++ Indent ++ Indent ++ "return " ++ SelfData ++ ":VectorLen(o)\n"
  ++ Indent ++ EndKw
  ++ Indent ++ "return 0\n"
  ++ EndFunc

/-- Source `GetStructFieldOfStruct` (line 205): re-initialize a
caller-supplied accessor at `pos + offset`. -/
def getStructFieldOfStruct (sd : SDef) (f : FDef) : String :=
  genReceiver sd ++ makeCamel (normalizedName f.name) true ++ "(obj)\n"
  ++ Indent ++ "obj:Init(" ++ SelfDataBytes ++ ", " ++ SelfDataPos ++ " + "
  ++ toString f.offset ++ ")\n"
  ++ Indent ++ "return obj\n"
  ++ EndFunc

/-- Source `GetStructFieldOfTable` (line 220); `target` is the
dereferenced `field.value.type.struct_def` — fixed targets are inline
(`o + pos`), tables need one `Indirect` step. -/
def getStructFieldOfTable (sd : SDef) (f : FDef) (target : SDef) : String :=
  genReceiver sd ++ makeCamel (normalizedName f.name) true ++ "()\n"
  ++ offsetPrefixStr f
  ++ (if target.fixed then
        Indent ++ Indent ++ "local x = o + " ++ SelfDataPos ++ "\n"
      else
        Indent ++ Indent ++ "local x = " ++ SelfData ++ ":Indirect(o + "
        ++ SelfDataPos ++ ")\n")
  ++ Indent ++ Indent ++ "local obj = require(\x27" ++ typeNameWithNamespace f
  ++ "\x27).New()\n"
  ++ Indent ++ Indent ++ "obj:Init(" ++ SelfDataBytes ++ ", x)\n"
  ++ Indent ++ Indent ++ "return obj\n"
  ++ Indent ++ EndKw
  ++ EndFunc

/-- Source `GetUnionField` (line 259): presence test, generic view over
an empty byte array, union getter, guarded return. -/
def getUnionField (sd : SDef) (f : FDef) : String :=
  genReceiver sd ++ makeCamel (normalizedName f.name) true ++ "()\n"
  ++ offsetPrefixStr f
  ++ Indent ++ Indent
  ++ "local obj = flatbuffers.view.New(require(\x27flatbuffers.binaryarray\x27).New(0), 0)\n"
  ++ Indent ++ Indent ++ genGetter f.ty ++ "obj, o)\n"
  ++ Indent ++ Indent ++ "return obj\n"
  ++ Indent ++ EndKw
  ++ EndFunc

/-- Source `GetMemberOfVectorOfStruct` (line 288); `target` is the
element's `struct_def`. -/
def getMemberOfVectorOfStruct (sd : SDef) (f : FDef) (target : SDef) : String :=
  genReceiver sd ++ makeCamel (normalizedName f.name) true ++ "(j)\n"
  ++ offsetPrefixStr f
  ++ Indent ++ Indent ++ "local x = " ++ SelfData ++ ":Vector(o)\n"
  ++ Indent ++ Indent ++ "x = x + ((j-1) * "
  ++ toString (InlineSize (vectorTypeOf f.ty)) ++ ")\n"
  ++ (if target.fixed then ""
      else Indent ++ Indent ++ "x = " ++ SelfData ++ ":Indirect(x)\n")
  ++ Indent ++ Indent ++ "local obj = require(\x27" ++ typeNameWithNamespace f
  ++ "\x27).New()\n"
  ++ Indent ++ Indent ++ "obj:Init(" ++ SelfDataBytes ++ ", x)\n"
  ++ Indent ++ Indent ++ "return obj\n"
  ++ Indent ++ EndKw
  ++ EndFunc

/-- Source `GenStructAccessor` (line 474): the {container shape} ×
{value shape} dispatch (comment emission is out of scope), plus the
sibling `Length` accessor for vector fields. -/
def genStructAccessor (sd : SDef) (f : FDef) : String :=
  (if isScalarTy f.ty then
     if sd.fixed then getScalarFieldOfStruct sd f else getScalarFieldOfTable sd f
   else
     match f.ty with
     | .structT target =>
         if sd.fixed then getStructFieldOfStruct sd f
         else getStructFieldOfTable sd f target
     | .stringT => getStringField sd f
     | .vector vt =>
         (match vt with
          | .structT target => getMemberOfVectorOfStruct sd f target
          | _ => getMemberOfVectorOfNonStruct sd f)
     | .unionT _ => getUnionField sd f
     | .scalar _ _ => "")
  ++ (if isVectorTy f.ty then getVectorLen sd f else "")

/-! ## Pure slot/name analysis used to state the claims -/

/-- The (field, slot) pairs emitted by the `GenTableBuilders` loop,
starting at positional index `n`: deprecated fields occupy an index but
produce no pair. -/
def addSlotsFrom : Nat → List FDef → List (FDef × Nat)
  | _, [] => []
  | i, f :: fs => (if f.deprecated then [] else [(f, i)]) ++ addSlotsFrom (i + 1) fs

/-- The (field, slot) pairs of a full declared field list. -/
def addSlots (fs : List FDef) : List (FDef × Nat) := addSlotsFrom 0 fs

/-- Mark a single field deprecated, keeping everything else. -/
def setDeprecatedF : FDef → FDef
  | .mk n t o c _ p => .mk n t o c true p

/-- The schema edit "mark the field at position `i` deprecated". -/
def deprecateAt : List FDef → Nat → List FDef
  | [], _ => []
  | f :: fs, 0 => setDeprecatedF f :: fs
  | f :: fs, i + 1 => f :: deprecateAt fs i

/-- The struct-builder parameter list as the spec words it: leaves in
forward declared order, each name the concatenation of the (escaped)
ancestor field names, `_`-separated, followed by the camel-cased leaf
name.  This is the spec-side reference the emitter is compared with. -/
def leafParamsFL : FList → String → List String
  | .nil, _ => []
  | .cons (.mk n ty _ _ _ _) fs, pre =>
    (match ty with
     | .structT (.mk _ _ true sfs _ _) =>
         leafParamsFL sfs (pre ++ normalizedName n ++ "_")
     | _ => [pre ++ makeCamel (normalizedName n) false])
    ++ leafParamsFL fs pre

/-- Render a parameter list the way `StructBuilderArgs` appends it: each
argument preceded by a comma and a space. -/
def joinArgs : List String → String
  | [] => ""
  | a :: l => ", " ++ a ++ joinArgs l

/-- The full preparation statement of one field in the struct-builder
body: its `Pad` when the precomputed padding is nonzero, then either the
nested struct's `Prep` plus recursive body, or its `Prepend`. -/
def fieldBodyStmt (f : FDef) (pre : String) : String :=
  (if f.padding ≠ 0 then
     Indent ++ "builder:Pad(" ++ toString f.padding ++ ")\n"
   else "")
  ++ (match f.ty with
      | .structT (.mk _ _ true sfs sbs sma) =>
          Indent ++ "builder:Prep(" ++ toString sma ++ ", " ++ toString sbs ++ ")\n"
          ++ structBuilderBodyFL sfs (pre ++ normalizedName f.name ++ "_")
      | _ =>
          Indent ++ "builder:Prepend" ++ genMethodTy f.ty ++ "("
          ++ pre ++ makeCamel (normalizedName f.name) false ++ ")\n")

/-! ## Concrete example schemas used as witnesses and counterexamples -/

/-- `hp:int32 = 100`, slot offset 4 (first slot). -/
def hpField : FDef := .mk "hp" (.scalar .int32 none) 4 "100" false 0

/-- `name:string`, slot offset 6 (second slot). -/
def nameField : FDef := .mk "name" .stringT 6 "0" false 0

/-- A later-appended `mana:int16 = 150` field. -/
def manaField : FDef := .mk "mana" (.scalar .int16 none) 8 "150" false 0

/-- The declared fields of the `Monster` example table. -/
def monsterFields : List FDef := [hpField, nameField]

/-- `table Monster { hp:int32 = 100; name:string; }`. -/
def monster : SDef :=
  .mk "Monster" "Monster" false (FList.ofList monsterFields) 0 1

/-- A non-deprecated scalar field of the deprecation example table. -/
def t3hp : FDef := .mk "hp" (.scalar .int32 none) 4 "100" false 0

/-- A deprecated scalar field of the deprecation example table. -/
def t3old : FDef := .mk "old" (.scalar .int8 none) 6 "0" true 0

/-- `table T3 { hp:int32 = 100; old:int8 (deprecated); }`. -/
def t3 : SDef := .mk "T3" "T3" false (.cons t3hp (.cons t3old .nil)) 0 1

/-- `x:float` of `Vec3`. -/
def vxField : FDef := .mk "x" (.scalar .float32 none) 0 "0.0" false 0

/-- `y:float` of `Vec3`. -/
def vyField : FDef := .mk "y" (.scalar .float32 none) 4 "0.0" false 0

/-- `z:float` of `Vec3`. -/
def vzField : FDef := .mk "z" (.scalar .float32 none) 8 "0.0" false 0

/-- `struct Vec3 { x:float; y:float; z:float; }` (12 bytes, align 4). -/
def vec3 : SDef :=
  .mk "Vec3" "Vec3" true (.cons vxField (.cons vyField (.cons vzField .nil))) 12 4

/-- `start:Vec3` of `Line`. -/
def lineStartField : FDef := .mk "start" (.structT vec3) 0 "0" false 0

/-- `end:Vec3` of `Line` (note: `end` is a Lua reserved word). -/
def lineEndField : FDef := .mk "end" (.structT vec3) 12 "0" false 0

/-- `struct Line { start:Vec3; end:Vec3; }` (24 bytes, align 4). -/
def lineSD : SDef :=
  .mk "Line" "Line" true (.cons lineStartField (.cons lineEndField .nil)) 24 4

/-- `a:int16` of the padded struct example. -/
def padAField : FDef := .mk "a" (.scalar .int16 none) 0 "0" false 0

/-- `b:int8` of the padded struct example, with one byte of precomputed
padding. -/
def padBField : FDef := .mk "b" (.scalar .int8 none) 2 "0" false 1

/-- `friendly:bool = false`, a table bool field at slot offset 8. -/
def friendlyField : FDef := .mk "friendly" (.scalar .boolT none) 8 "0" false 0

/-- A table holding the bool example field. -/
def boolTable : SDef :=
  .mk "Critter" "Critter" false (.cons friendlyField .nil) 0 1

/-- `flag:bool` inside a fixed struct, byte offset 0. -/
def flagField : FDef := .mk "flag" (.scalar .boolT none) 0 "0" false 0

/-- `struct Flags { flag:bool; }` (fixed). -/
def flagStruct : SDef := .mk "Flags" "Flags" true (.cons flagField .nil) 1 1

/-- The `NONE` value of the example union. -/
def evNone : EnumVal := ⟨"NONE", 0, false, ""⟩

/-- The `Sword` arm of the example union. -/
def evSword : EnumVal := ⟨"Sword", 1, false, "MyGame.Sword"⟩

/-- The `Axe` arm of the example union. -/
def evAxe : EnumVal := ⟨"Axe", 2, false, "MyGame.Axe"⟩

/-- A string-typed arm of the example union. -/
def evTag : EnumVal := ⟨"Tag", 3, true, ""⟩

/-- `union WeaponU { Sword, Axe, Tag:string }` with reserved `NONE`. -/
def weaponUnion : EnumDefM :=
  ⟨"WeaponU", "MyGame.WeaponU", true, [evNone, evSword, evAxe, evTag]⟩

/-- `data:WeaponU`, a union-valued table field. -/
def dataUnionField : FDef := .mk "data" (.unionT weaponUnion) 10 "0" false 0

/-- `items:[WeaponU]`, a vector-of-union table field. -/
def itemsVecUnionField : FDef :=
  .mk "items" (.vector (.unionT weaponUnion)) 12 "0" false 0

/-- `pos:Vec3`, a struct-valued table field. -/
def posStructField : FDef := .mk "pos" (.structT vec3) 14 "0" false 0

/-! ## Shared lemmas -/

/-- `ofList` then `toList` is the identity on field lists. -/
theorem FList.toList_ofList (l : List FDef) : (FList.ofList l).toList = l := by
  induction l with
  | nil => rfl
  | cons f fs ih => simp [FList.ofList, FList.toList, ih]

/-- `strJoin` distributes over list append. -/
theorem strJoin_append (l₁ l₂ : List String) :
    strJoin (l₁ ++ l₂) = strJoin l₁ ++ strJoin l₂ := by
  induction l₁ with
  | nil => simp [strJoin]
  | cons s l ih => simp [strJoin, ih, String.append_assoc]

/-- `joinArgs` distributes over list append. -/
theorem joinArgs_append (l₁ l₂ : List String) :
    joinArgs (l₁ ++ l₂) = joinArgs l₁ ++ joinArgs l₂ := by
  induction l₁ with
  | nil => simp [joinArgs]
  | cons s l ih => simp [joinArgs, ih, String.append_assoc]

/-- Marking one field deprecated does not change the field count. -/
theorem deprecateAt_length (fs : List FDef) (i : Nat) :
    (deprecateAt fs i).length = fs.length := by
  induction fs generalizing i with
  | nil => rfl
  | cons f fs ih =>
    cases i with
    | zero => simp [deprecateAt]
    | succ j => simp [deprecateAt, ih]

/-- Marking field `i` deprecated leaves every other position intact. -/
theorem deprecateAt_get?_ne (fs : List FDef) (i j : Nat) (h : j ≠ i) :
    (deprecateAt fs i).get? j = fs.get? j := by
  induction fs generalizing i j with
  | nil => rfl
  | cons f fs ih =>
    cases i with
    | zero =>
      cases j with
      | zero => exact absurd rfl h
      | succ j' => simp [deprecateAt]
    | succ i' =>
      cases j with
      | zero => simp [deprecateAt]
      | succ j' => simpa [deprecateAt] using ih i' j' (fun hji => h (by omega))

/-- A non-deprecated field at declared position `j` receives slot `n + j`
in the slot assignment starting at `n`. -/
theorem addSlotsFrom_mem (fs : List FDef) (n j : Nat) (f : FDef)
    (hget : fs.get? j = some f) (hdep : f.deprecated = false) :
    (f, n + j) ∈ addSlotsFrom n fs := by
  induction fs generalizing n j with
  | nil => simp at hget
  | cons g fs ih =>
    cases j with
    | zero =>
      rw [List.get?_cons_zero] at hget
      cases Option.some.inj hget
      rw [addSlotsFrom]
      refine List.mem_append.mpr (Or.inl ?_)
      simp [hdep]
    | succ j' =>
      rw [List.get?_cons_succ] at hget
      have h' := ih (n + 1) j' hget
      have heq : n + (j' + 1) = n + 1 + j' := by omega
      rw [addSlotsFrom]
      refine List.mem_append.mpr (Or.inr ?_)
      rw [heq]
      exact h'

/-- Appending a field assigns it the next slot and leaves all existing
assignments unchanged. -/
theorem addSlotsFrom_append (fs : List FDef) (g : FDef) (n : Nat) :
    addSlotsFrom n (fs ++ [g]) =
      addSlotsFrom n fs
      ++ (if g.deprecated then [] else [(g, n + fs.length)]) := by
  induction fs generalizing n with
  | nil => simp [addSlotsFrom]
  | cons f fs ih =>
    have heq : n + 1 + fs.length = n + (fs.length + 1) := by omega
    calc addSlotsFrom n ((f :: fs) ++ [g])
        = (if f.deprecated then [] else [(f, n)])
            ++ addSlotsFrom (n + 1) (fs ++ [g]) := rfl
      _ = (if f.deprecated then [] else [(f, n)])
            ++ (addSlotsFrom (n + 1) fs
                ++ (if g.deprecated then [] else [(g, n + 1 + fs.length)])) := by
            rw [ih (n + 1)]
      _ = ((if f.deprecated then [] else [(f, n)]) ++ addSlotsFrom (n + 1) fs)
            ++ (if g.deprecated then [] else [(g, n + (fs.length + 1))]) := by
            rw [heq, List.append_assoc]
      _ = addSlotsFrom n (f :: fs)
            ++ (if g.deprecated then [] else [(g, n + (f :: fs).length)]) := rfl

/-- Slot-assignment count plus deprecated-field count equals the total
declared field count. -/
theorem addSlotsFrom_length (fs : List FDef) (n : Nat) :
    (addSlotsFrom n fs).length + (fs.filter (fun f => f.deprecated)).length
      = fs.length := by
  induction fs generalizing n with
  | nil => rfl
  | cons f fs ih =>
    have hih := ih (n + 1)
    cases hd : f.deprecated with
    | true =>
      simp [addSlotsFrom, hd, List.filter_cons]
      omega
    | false =>
      simp [addSlotsFrom, hd, List.filter_cons]
      omega

/-- The `GenTableBuilders` field loop emits exactly one `Add` block per
slot-assignment pair, in order. -/
theorem tableAddCalls_eq_join (sd : SDef) (fs : List FDef) (n : Nat) :
    tableAddCalls sd n fs =
      strJoin ((addSlotsFrom n fs).map
        (fun p => buildFieldOfTable sd p.1 p.2
          ++ (if isVectorTy p.1.ty then buildVectorOfTable sd p.1 else ""))) := by
  induction fs generalizing n with
  | nil => rfl
  | cons f fs ih =>
    cases hd : f.deprecated <;>
      simp [tableAddCalls, addSlotsFrom, hd, ih (n + 1), strJoin,
            List.map_append, strJoin_append]

/-- The union dispatch loop (skip zero, emit a line) is the dispatch
lines of the nonzero values. -/
theorem dispatch_filterMap (vals : List EnumVal) :
    vals.filterMap
        (fun ev => if ev.value = 0 then none else some (unionDispatchLine ev))
      = (vals.filter (fun ev => ev.value != 0)).map unionDispatchLine := by
  induction vals with
  | nil => rfl
  | cons v vs ih =>
    by_cases h : v.value = 0 <;>
      simp [List.filterMap_cons, List.filter_cons, h, ih]

/-- No Lua keyword starts with an underscore, so the escape of a keyword
is never itself a keyword. -/
theorem underscore_keyword_free :
    ∀ n ∈ luaKeywords, ("_" ++ n) ∉ luaKeywords := by decide

/-- A bool-typed value is a scalar. -/
theorem isScalar_of_isBool {t : LuaType} (h : isBoolTy t = true) :
    isScalarTy t = true := by
  cases t with
  | scalar k ed => rfl
  | stringT => simp [isBoolTy] at h
  | vector e => simp [isBoolTy] at h
  | structT sd => simp [isBoolTy] at h
  | unionT ed => simp [isBoolTy] at h

/-- A bool-typed value is not a vector. -/
theorem not_isVector_of_isBool {t : LuaType} (h : isBoolTy t = true) :
    isVectorTy t = false := by
  cases t with
  | scalar k ed => rfl
  | stringT => simp [isBoolTy] at h
  | vector e => simp [isBoolTy] at h
  | structT sd => simp [isBoolTy] at h
  | unionT ed => simp [isBoolTy] at h

/-- `StructBuilderArgs` renders exactly the spec-side flattened leaf
parameter list (forward declared order, ancestor-name prefixes), each
parameter preceded by a comma. -/
theorem argsFL_eq_leaf : ∀ (fs : FList) (pre : String),
    structBuilderArgsFL fs pre = joinArgs (leafParamsFL fs pre)
  | .nil, _ => rfl
  | .cons (.mk n (.scalar k ed) o c d p) fs, pre => by
      simp [structBuilderArgsFL, leafParamsFL, joinArgs,
            argsFL_eq_leaf fs pre, String.append_assoc]
  | .cons (.mk n .stringT o c d p) fs, pre => by
      simp [structBuilderArgsFL, leafParamsFL, joinArgs,
            argsFL_eq_leaf fs pre, String.append_assoc]
  | .cons (.mk n (.vector e) o c d p) fs, pre => by
      simp [structBuilderArgsFL, leafParamsFL, joinArgs,
            argsFL_eq_leaf fs pre, String.append_assoc]
  | .cons (.mk n (.unionT ed) o c d p) fs, pre => by
      simp [structBuilderArgsFL, leafParamsFL, joinArgs,
            argsFL_eq_leaf fs pre, String.append_assoc]
  | .cons (.mk n (.structT (.mk sn sq false sfs sbs sma)) o c d p) fs, pre => by
      simp [structBuilderArgsFL, leafParamsFL, joinArgs,
            argsFL_eq_leaf fs pre, String.append_assoc]
  | .cons (.mk n (.structT (.mk sn sq true sfs sbs sma)) o c d p) fs, pre => by
      simp [structBuilderArgsFL, leafParamsFL,
            argsFL_eq_leaf sfs (pre ++ (normalizedName n ++ "_")),
            argsFL_eq_leaf fs pre, joinArgs_append, String.append_assoc]

/-- The struct-builder body visits fields in reverse declared order:
the head field's preparation statement is emitted after the whole body
of the remaining fields. -/
theorem structBuilderBodyFL_cons (f : FDef) (fs : FList) (pre : String) :
    structBuilderBodyFL (.cons f fs) pre
      = structBuilderBodyFL fs pre ++ fieldBodyStmt f pre := by
  cases f with
  | mk n ty o c d p =>
    cases ty with
    | scalar k ed =>
      simp [structBuilderBodyFL, fieldBodyStmt, FDef.padding, FDef.ty,
            FDef.name, String.append_assoc]
    | stringT =>
      simp [structBuilderBodyFL, fieldBodyStmt, FDef.padding, FDef.ty,
            FDef.name, String.append_assoc]
    | vector e =>
      simp [structBuilderBodyFL, fieldBodyStmt, FDef.padding, FDef.ty,
            FDef.name, String.append_assoc]
    | unionT ed =>
      simp [structBuilderBodyFL, fieldBodyStmt, FDef.padding, FDef.ty,
            FDef.name, String.append_assoc]
    | structT sd =>
      cases sd with
      | mk sn sq sfx sfs sbs sma =>
        cases sfx <;>
          simp [structBuilderBodyFL, fieldBodyStmt, FDef.padding, FDef.ty,
                FDef.name, String.append_assoc]

/-! ## Claim theorems -/

/-- Claim C8, amended: keyword escaping is idempotent, leaves
non-reserved names unchanged and disambiguates reserved words; however
the escaped form of a reserved word collides exactly with the one
non-reserved identifier consisting of an underscore followed by that
word (for example `_and`), so collision-freedom holds only against
every other non-reserved identifier. -/
theorem C8_escape_idempotent_amended :
    (∀ n, escapeKeyword (escapeKeyword n) = escapeKeyword n)
    ∧ (∀ n, n ∉ luaKeywords → escapeKeyword n = n)
    ∧ (∀ n, n ∈ luaKeywords → escapeKeyword n = "_" ++ n ∧ escapeKeyword n ≠ n)
    ∧ (∀ w n, w ∈ luaKeywords → n ∉ luaKeywords →
        (escapeKeyword n = escapeKeyword w ↔ n = "_" ++ w)) := by
  refine ⟨?_, ?_, ?_, ?_⟩
  · intro n
    by_cases h : n ∈ luaKeywords
    · have hinner : escapeKeyword n = "_" ++ n := by
        rw [escapeKeyword, if_pos h]
      rw [hinner, escapeKeyword, if_neg (underscore_keyword_free n h)]
    · have hinner : escapeKeyword n = n := by
        rw [escapeKeyword, if_neg h]
      rw [hinner]
      exact hinner
  · intro n h
    rw [escapeKeyword, if_neg h]
  · intro n h
    refine ⟨by rw [escapeKeyword, if_pos h], ?_⟩
    rw [escapeKeyword, if_pos h]
    intro hcontra
    have hlen := congrArg String.length hcontra
    rw [String.length_append] at hlen
    have h1 : ("_" : String).length = 1 := rfl
    omega
  · intro w n hw hn
    rw [escapeKeyword, if_neg hn, escapeKeyword, if_pos hw]

/-- Claim C8, counterexample: the non-reserved identifier `_and`
escapes to itself, which is exactly the escape of the reserved word
`and` — a collision in any scope containing both. -/
theorem C8_escape_collision_counterexample :
    escapeKeyword ("and") = escapeKeyword ("_and")
    ∧ ("_and") ∉ luaKeywords
    ∧ ("and") ≠ ("_and") :=
  ⟨by decide, by decide, by decide⟩

/-- Claim C8, witness: the amended theorem applied to the reserved word
`local` and the non-reserved name `hp`. -/
theorem C8_escape_witness :
    ("local") ∈ luaKeywords ∧ ("hp") ∉ luaKeywords
    ∧ escapeKeyword (escapeKeyword ("local")) = escapeKeyword ("local")
    ∧ escapeKeyword ("hp") = "hp"
    ∧ (escapeKeyword ("local") = "_local" ∧ escapeKeyword ("local") ≠ "local")
    ∧ (escapeKeyword ("hp") = escapeKeyword ("local") ↔ "hp" = "_local") :=
  ⟨by decide, by decide,
   C8_escape_idempotent_amended.1 ("local"),
   C8_escape_idempotent_amended.2.1 ("hp") (by decide),
   C8_escape_idempotent_amended.2.2.1 ("local") (by decide),
   C8_escape_idempotent_amended.2.2.2 ("local") ("hp") (by decide) (by decide)⟩

/-- Claim C1, counterexample: for `table Monster{hp, name:string}` the
generated `Name()` accessor does perform the presence test and the
string decode, but contains no `return ''` — when the field is absent
the generated Lua function falls through (returning nil), not the
empty-string sentinel. -/
theorem C1_string_absent_counterexample :
    strContains (genStructAccessor monster nameField) ("return \x27\x27") = false
    ∧ strContains (genStructAccessor monster nameField) ("if o ~= 0 then") = true
    ∧ strContains (genStructAccessor monster nameField)
        ("return self.view:String(o + self.view.pos)") = true :=
  ⟨by decide, by decide, by decide⟩

/-- Claim C1, amended: every string-typed table-field accessor performs
the vtable presence test and decodes only under it; on absence the
function body simply ends (no return statement — nil in Lua), and the
`''` sentinel is emitted only as the absent-case fallback of the
vector-of-string element accessor. -/
theorem C1_string_absent_amended (sd : SDef) (f : FDef)
    (hty : f.ty = .stringT) (hdep : f.deprecated = false)
    (htable : sd.fixed = false) :
    genStructAccessor sd f = getStringField sd f
    ∧ getStringField sd f =
        genReceiver sd ++ makeCamel (normalizedName f.name) true ++ "()\n"
        ++ offsetPrefixStr f
        ++ (Indent ++ Indent ++ "return " ++ SelfData ++ ":String("
            ++ "o + " ++ SelfDataPos ++ ")\n")
        ++ Indent ++ EndKw
        ++ EndFunc
    ∧ (∀ g : FDef, g.ty = .vector .stringT →
        getMemberOfVectorOfNonStruct sd g =
          genReceiver sd ++ makeCamel (normalizedName g.name) true ++ "(j)\n"
          ++ offsetPrefixStr g
          ++ (Indent ++ Indent ++ "local a = " ++ SelfData ++ ":Vector(o)\n")
          ++ (Indent ++ Indent ++ "return " ++ SelfData ++ ":String("
              ++ "a + ((j-1) * "
              ++ toString (InlineSize (vectorTypeOf g.ty)) ++ "))\n")
          ++ Indent ++ EndKw
          ++ (Indent ++ "return \x27\x27\n")
          ++ EndFunc) := by
  refine ⟨?_, ?_, ?_⟩
  · simp [genStructAccessor, hty, isScalarTy, isVectorTy]
  · simp [getStringField, hty, genGetter, String.append_assoc]
  · intro g hg
    simp [getMemberOfVectorOfNonStruct, hg, genGetter, vectorTypeOf,
          String.append_assoc]

/-- Claim C1, witness: the amended theorem applied to the `Monster`
example table and its `name:string` field. -/
theorem C1_string_absent_witness :
    nameField.ty = .stringT ∧ nameField.deprecated = false
    ∧ monster.fixed = false
    ∧ genStructAccessor monster nameField = getStringField monster nameField :=
  ⟨rfl, rfl, rfl, (C1_string_absent_amended monster nameField rfl rfl rfl).1⟩

/-- Claim C5: a scalar table-field accessor guards the read behind the
presence test and, when the slot offset is zero, returns the rendered
schema default: the raw constant for non-bool scalars, and for bools the
literal `false` exactly when the constant is the string `"0"`, else
`true`. -/
theorem C5_scalar_default_thm (sd : SDef) (f : FDef)
    (hs : isScalarTy f.ty = true) (hdep : f.deprecated = false) :
    (isBoolTy f.ty = false →
      getScalarFieldOfTable sd f =
        genReceiver sd ++ makeCamel (normalizedName f.name) true ++ "()\n"
        ++ offsetPrefixStr f
        ++ (Indent ++ Indent ++ "return "
            ++ (genGetter f.ty ++ "o + " ++ SelfDataPos ++ ")") ++ "\n")
        ++ Indent ++ EndKw
        ++ (Indent ++ "return " ++ f.constant ++ "\n")
        ++ EndFunc)
    ∧ (isBoolTy f.ty = true →
      getScalarFieldOfTable sd f =
        genReceiver sd ++ makeCamel (normalizedName f.name) true ++ "()\n"
        ++ offsetPrefixStr f
        ++ (Indent ++ Indent ++ "return "
            ++ ("(" ++ (genGetter f.ty ++ "o + " ++ SelfDataPos ++ ")")
                ++ " ~= 0)") ++ "\n")
        ++ Indent ++ EndKw
        ++ (Indent ++ "return "
            ++ (if f.constant = "0" then "false" else "true") ++ "\n")
        ++ EndFunc
      ∧ ((if f.constant = "0" then "false" else "true") = "false"
          ↔ f.constant = "0")) := by
  constructor
  · intro hb
    simp [getScalarFieldOfTable, hb, String.append_assoc]
  · intro hb
    constructor
    · simp [getScalarFieldOfTable, hb, String.append_assoc]
    · by_cases hc : f.constant = "0"
      · simp [hc]
      · rw [if_neg hc]
        constructor
        · intro h
          exact absurd h (by decide)
        · intro h
          exact absurd h hc

/-- Claim C5, witness: the theorem applied to `hp:int32 = 100` of the
`Monster` example, plus concrete checks of the emitted fallback lines
for `hp` and for a bool field with constant `"0"`. -/
theorem C5_scalar_default_witness :
    (isScalarTy hpField.ty = true ∧ hpField.deprecated = false)
    ∧ strContains (getScalarFieldOfTable monster hpField) ("return 100") = true
    ∧ strContains (getScalarFieldOfTable boolTable friendlyField)
        ("return false") = true
    ∧ getScalarFieldOfTable monster hpField =
        genReceiver monster ++ makeCamel (normalizedName hpField.name) true
        ++ "()\n"
        ++ offsetPrefixStr hpField
        ++ (Indent ++ Indent ++ "return "
            ++ (genGetter hpField.ty ++ "o + " ++ SelfDataPos ++ ")") ++ "\n")
        ++ Indent ++ EndKw
        ++ (Indent ++ "return " ++ hpField.constant ++ "\n")
        ++ EndFunc :=
  ⟨⟨rfl, rfl⟩, by decide, by decide,
   (C5_scalar_default_thm monster hpField rfl rfl).1 rfl⟩

/-- Claim C10: a physically present bool table field decodes as the
comparison `(raw ~= 0)` — the present-branch return wraps the raw getter
in a nonzero test — while a bool field of a fixed struct is returned as
the raw getter value with no such comparison. -/
theorem C10_bool_decode_thm (sd : SDef) (f : FDef)
    (hb : isBoolTy f.ty = true) :
    (sd.fixed = false →
      genStructAccessor sd f = getScalarFieldOfTable sd f
      ∧ getScalarFieldOfTable sd f =
          genReceiver sd ++ makeCamel (normalizedName f.name) true ++ "()\n"
          ++ offsetPrefixStr f
          ++ (Indent ++ Indent ++ "return "
              ++ ("(" ++ (genGetter f.ty ++ "o + " ++ SelfDataPos ++ ")")
                  ++ " ~= 0)") ++ "\n")
          ++ Indent ++ EndKw
          ++ (Indent ++ "return "
              ++ (if f.constant = "0" then "false" else "true") ++ "\n")
          ++ EndFunc)
    ∧ (sd.fixed = true →
      genStructAccessor sd f = getScalarFieldOfStruct sd f
      ∧ getScalarFieldOfStruct sd f =
          genReceiver sd ++ makeCamel (normalizedName f.name) true ++ "()\n"
          ++ (Indent ++ "return " ++ genGetter f.ty
              ++ SelfDataPos ++ " + " ++ toString f.offset ++ ")\n")
          ++ EndFunc) := by
  have hs := isScalar_of_isBool hb
  have hv := not_isVector_of_isBool hb
  constructor
  · intro hfx
    refine ⟨by simp [genStructAccessor, hs, hv, hfx], ?_⟩
    simp [getScalarFieldOfTable, hb, String.append_assoc]
  · intro hfx
    refine ⟨by simp [genStructAccessor, hs, hv, hfx], ?_⟩
    simp [getScalarFieldOfStruct, String.append_assoc]

/-- Claim C10, witness: the theorem applied to a bool field in a table
and a bool field in a fixed struct; the emitted table accessor contains
the `~= 0` comparison and the struct accessor does not. -/
theorem C10_bool_decode_witness :
    isBoolTy friendlyField.ty = true
    ∧ boolTable.fixed = false
    ∧ genStructAccessor boolTable friendlyField
        = getScalarFieldOfTable boolTable friendlyField
    ∧ strContains (genStructAccessor boolTable friendlyField) ("~= 0") = true
    ∧ strContains (genStructAccessor flagStruct flagField) ("~= 0") = false :=
  ⟨rfl, rfl, ((C10_bool_decode_thm boolTable friendlyField rfl).1 rfl).1,
   by decide, by decide⟩

/-- Claim C2: `Start` declares the total declared field count
(deprecated fields included, and unchanged by marking a field
deprecated); every emitted `Add` passes the field's declared position as
its slot; and the slot of any existing non-deprecated field is unchanged
by appending a new field or deprecating another field. -/
theorem C2_slot_stability_thm :
    (∀ (n q : String) (fx : Bool) (fs : List FDef) (bs ma i : Nat),
      getStartOfTable (.mk n q fx (FList.ofList (deprecateAt fs i)) bs ma)
        = getStartOfTable (.mk n q fx (FList.ofList fs) bs ma))
    ∧ (∀ sd, getStartOfTable sd =
        "function " ++ normalizedName sd.name ++ ".Start" ++ "(builder) "
        ++ "builder:StartObject(" ++ toString sd.fieldsList.length
        ++ ") end\n")
    ∧ (∀ sd, genTableBuilders sd =
        getStartOfTable sd
        ++ strJoin ((addSlots sd.fieldsList).map
            (fun p => buildFieldOfTable sd p.1 p.2
              ++ (if isVectorTy p.1.ty then buildVectorOfTable sd p.1 else "")))
        ++ getEndOffsetOnTable sd)
    ∧ (∀ (fs : List FDef) (j : Nat) (f : FDef),
        fs.get? j = some f → f.deprecated = false → (f, j) ∈ addSlots fs)
    ∧ (∀ (fs : List FDef) (g : FDef),
        addSlots (fs ++ [g])
          = addSlots fs ++ (if g.deprecated then [] else [(g, fs.length)]))
    ∧ (∀ (fs : List FDef) (i j : Nat) (f : FDef),
        j ≠ i → fs.get? j = some f → f.deprecated = false →
        (f, j) ∈ addSlots (deprecateAt fs i)) := by
  refine ⟨?_, ?_, ?_, ?_, ?_, ?_⟩
  · intro n q fx fs bs ma i
    simp [getStartOfTable, SDef.fieldsList, SDef.fields, SDef.name,
          FList.toList_ofList, deprecateAt_length]
  · intro sd
    rfl
  · intro sd
    rw [genTableBuilders, addSlots, tableAddCalls_eq_join]
  · intro fs j f hget hdep
    simpa [addSlots] using addSlotsFrom_mem fs 0 j f hget hdep
  · intro fs g
    simpa [addSlots] using addSlotsFrom_append fs g 0
  · intro fs i j f hne hget hdep
    have hmem := addSlotsFrom_mem (deprecateAt fs i) 0 j f
      (by rw [deprecateAt_get?_ne fs i j hne]; exact hget) hdep
    simpa [addSlots] using hmem

/-- Claim C2, witness: the theorem applied to the `Monster` fields —
`name` holds slot 1, keeps it when `hp` is deprecated, and appending
`mana` assigns slot 2 without touching existing assignments. -/
theorem C2_slot_stability_witness :
    monsterFields.get? 1 = some nameField
    ∧ nameField.deprecated = false
    ∧ (nameField, 1) ∈ addSlots monsterFields
    ∧ (nameField, 1) ∈ addSlots (deprecateAt monsterFields 0)
    ∧ addSlots (monsterFields ++ [manaField])
        = addSlots monsterFields
          ++ (if manaField.deprecated then []
              else [(manaField, monsterFields.length)]) :=
  ⟨rfl, rfl,
   C2_slot_stability_thm.2.2.2.1 monsterFields 1 nameField rfl rfl,
   C2_slot_stability_thm.2.2.2.2.2 monsterFields 0 1 nameField
     (by decide) rfl rfl,
   C2_slot_stability_thm.2.2.2.2.1 monsterFields manaField⟩

/-- Claim C3, counterexample: for `table T3{hp:int32; old:int8
(deprecated)}` the emitted Start capacity is 2 while only one Add call
is emitted, and the full builder code is generated anyway — there is no
self-check and no failure path. -/
theorem C3_no_selfcheck_counterexample :
    (addSlots t3.fieldsList).length = 1
    ∧ t3.fieldsList.length = 2
    ∧ strContains (genTableBuilders t3) ("builder:StartObject(2)") = true
    ∧ strContains (genTableBuilders t3) ("function T3.AddHp") = true
    ∧ strContains (genTableBuilders t3) ("AddOld") = false
    ∧ strContains (genTableBuilders t3)
        ("function T3.End(builder) return builder:EndObject() end") = true :=
  ⟨by decide, by decide, by decide, by decide, by decide, by decide⟩

/-- Claim C3, amended: the generator performs no count self-check and
has no failure path — builder code is emitted unconditionally; the
Start capacity is the total declared count while one Add is emitted per
non-deprecated field, so the two counts agree exactly when no declared
field is deprecated. -/
theorem C3_no_selfcheck_amended :
    (∀ sd, genTableBuilders sd =
      getStartOfTable sd ++ tableAddCalls sd 0 sd.fieldsList
      ++ getEndOffsetOnTable sd)
    ∧ (∀ fs : List FDef,
        (addSlots fs).length
          + (fs.filter (fun f => f.deprecated)).length = fs.length)
    ∧ (∀ fs : List FDef,
        (addSlots fs).length = fs.length
          ↔ ∀ f ∈ fs, f.deprecated = false) := by
  refine ⟨fun sd => rfl, fun fs => addSlotsFrom_length fs 0, ?_⟩
  intro fs
  have hlen : (addSlots fs).length
      + (fs.filter (fun f => f.deprecated)).length = fs.length :=
    addSlotsFrom_length fs 0
  have hfe : (fs.filter (fun f => f.deprecated)).length = 0
      ↔ ∀ f ∈ fs, f.deprecated = false := by
    rw [List.length_eq_zero, List.filter_eq_nil]
    constructor
    · intro h f hf
      simpa using h f hf
    · intro h f hf
      simp [h f hf]
  constructor
  · intro h
    exact hfe.mp (by omega)
  · intro h
    have := hfe.mpr h
    omega

/-- Claim C3, witness: the amended theorem applied to the deprecated
example table `T3` and to the deprecation-free `Monster` fields. -/
theorem C3_no_selfcheck_witness :
    genTableBuilders t3 =
      getStartOfTable t3 ++ tableAddCalls t3 0 t3.fieldsList
      ++ getEndOffsetOnTable t3
    ∧ (addSlots t3.fieldsList).length
        + (t3.fieldsList.filter (fun f => f.deprecated)).length
        = t3.fieldsList.length
    ∧ ((addSlots monsterFields).length = monsterFields.length
        ↔ ∀ f ∈ monsterFields, f.deprecated = false) :=
  ⟨C3_no_selfcheck_amended.1 t3,
   C3_no_selfcheck_amended.2.1 t3.fieldsList,
   C3_no_selfcheck_amended.2.2 monsterFields⟩

/-- Claim C4: for every vector-of-union field, the object-API Pack
pre-pass takes the relocatable-element path and — at the per-element
assignment into the offset array named after the field — emits the
explicit `**not supported**` marker instead of any pack call, so the
unsupported shape is surfaced in the generated artifact at generation
time, tagged with the offending field's name. -/
theorem C4_vector_union_marker_thm (c : String) (f : FDef) (e : EnumDefM)
    (h : f.ty = .vector (.unionT e)) :
    packVectorPre c f =
      Indent ++ "local _" ++ f.name ++ " = 0\n"
      ++ Indent ++ "if o." ++ makeCamel f.name true ++ "~= nil then\n"
      ++ Indent ++ Indent ++ "local " ++ ("__" ++ f.name ++ "_length")
      ++ " = #o." ++ makeCamel f.name true ++ "\n"
      ++ (Indent ++ Indent ++ "local " ++ ("__" ++ f.name ++ "_array")
          ++ " = \x7b\x7d\n"
          ++ Indent ++ Indent ++ "for i, v in ipairs(o."
          ++ makeCamel f.name true ++ ") do\n"
          ++ Indent ++ Indent ++ Indent ++ ("__" ++ f.name ++ "_array")
          ++ "[i] = "
          ++ "**not supported**\n"
          ++ Indent ++ Indent ++ "end\n"
          ++ Indent ++ Indent ++ c ++ ".Start" ++ f.name
          ++ "Vector(builder, " ++ ("__" ++ f.name ++ "_length") ++ ")\n"
          ++ Indent ++ Indent ++ "for _j = " ++ ("__" ++ f.name ++ "_length")
          ++ ", 1, -1 do\n"
          ++ Indent ++ Indent ++ Indent
          ++ "builder:PrependUOffsetTRelative(" ++ ("__" ++ f.name ++ "_array")
          ++ "[_j]))\n"
          ++ Indent ++ Indent ++ "end\n")
      ++ Indent ++ Indent ++ "_" ++ f.name ++ " = builder:EndVector("
      ++ ("__" ++ f.name ++ "_length") ++ ")\n"
      ++ Indent ++ "end\n\n" := by
  cases f with
  | mk n ty o c' d p =>
    simp only [FDef.ty] at h
    subst h
    rfl

/-- Claim C4, witness: the theorem applied to the `items:[WeaponU]`
example field; the emitted pre-pass contains the field-tagged marker
line and is visibly non-empty. -/
theorem C4_vector_union_marker_witness :
    itemsVecUnionField.ty = .vector (.unionT weaponUnion)
    ∧ strContains (packVectorPre ("Monster") itemsVecUnionField)
        ("__items_array[i] = **not supported**") = true
    ∧ packVectorPre ("Monster") itemsVecUnionField ≠ "" :=
  ⟨rfl, by decide,
   by
     rw [C4_vector_union_marker_thm ("Monster") itemsVecUnionField
           weaponUnion rfl]
     decide⟩

/-- Claim C6, counterexample: in the object-API mirror constructor a
union-valued field is initialized to an eagerly constructed
`require('...').Union()` container, not to nil as the claim states. -/
theorem C6_objctor_counterexample :
    objectDeclField false dataUnionField
      = Indent ++ Indent
        ++ "this.Data = require(\x27MyGame.WeaponU\x27).Union()\n"
    ∧ objectDeclField false dataUnionField
        ≠ Indent ++ Indent ++ "this.Data = nil\n" :=
  ⟨by decide, by decide⟩

/-- Claim C6, amended: struct- and table-valued fields of the mirror
constructor are initialized to nil (never eagerly constructed), while a
union-valued field is initialized to a required empty `.Union()`
container (whose own payload starts nil); the constructor covers every
non-deprecated field. -/
theorem C6_objctor_amended (b : Bool) (f : FDef) :
    (∀ sd, f.ty = .structT sd →
      objectDeclField b f =
        Indent ++ Indent ++ "this." ++ makeCamel f.name true ++ " = "
        ++ "nil\n")
    ∧ (∀ ed, f.ty = .unionT ed →
      objectDeclField b f =
        Indent ++ Indent ++ "this." ++ makeCamel f.name true ++ " = "
        ++ "require(\x27" ++ ed.qname ++ "\x27).Union()\n")
    ∧ (∀ sd setNull, genObjectDecl setNull sd =
        normalizedName (SDef.name sd) ++ ".T = \x7b\n"
        ++ Indent ++ "__ctor__ = function (this)\n"
        ++ strJoin ((sd.fieldsList.filter (fun g => !g.deprecated)).map
            (objectDeclField setNull))
        ++ Indent ++ "end\n" ++ "\x7d\n") := by
  refine ⟨?_, ?_, fun sd setNull => rfl⟩
  · intro sd h
    cases f with
    | mk n ty o c' d p =>
      simp only [FDef.ty] at h
      subst h
      rfl
  · intro ed h
    cases f with
    | mk n ty o c' d p =>
      simp only [FDef.ty] at h
      subst h
      rfl

/-- Claim C6, witness: the amended theorem applied to `pos:Vec3`
(struct-valued, initialized nil). -/
theorem C6_objctor_witness :
    posStructField.ty = .structT vec3
    ∧ objectDeclField false posStructField
        = Indent ++ Indent ++ "this." ++ makeCamel posStructField.name true
          ++ " = " ++ "nil\n" :=
  ⟨rfl, (C6_objctor_amended false posStructField).1 vec3 rfl⟩

/-- Claim C7, counterexample: for `struct Line{start:Vec3; end:Vec3}`
the builder parameters are not `start_x..end_z` — the field name `end`
is a Lua reserved word and is escaped to `_end`, so the last three
parameters are `_end_x, _end_y, _end_z`. -/
theorem C7_struct_builder_counterexample :
    structBuilderArgsSD lineSD ""
      ≠ ", start_x, start_y, start_z, end_x, end_y, end_z"
    ∧ structBuilderArgsSD lineSD ""
        = ", start_x, start_y, start_z, _end_x, _end_y, _end_z" :=
  ⟨by decide, by decide⟩

/-- Claim C7, amended: the builder's parameter list is exactly the
forward-declared flattening of leaf fields with (escaped)
ancestor-name prefixes; the body emits one preparation statement per
field in reverse declared order, with an explicit `Pad` before any
field of nonzero precomputed padding; and for `Vec3` nested in `Line`
the six parameters are `start_x, start_y, start_z, _end_x, _end_y,
_end_z` (the declared name `end` being keyword-escaped). -/
theorem C7_struct_builder_amended :
    (∀ (fs : FList) (pre : String),
      structBuilderArgsFL fs pre = joinArgs (leafParamsFL fs pre))
    ∧ (∀ (f : FDef) (fs : FList) (pre : String),
      structBuilderBodyFL (.cons f fs) pre
        = structBuilderBodyFL fs pre ++ fieldBodyStmt f pre)
    ∧ (∀ (f : FDef) (pre : String), f.padding ≠ 0 →
      ∃ rest, fieldBodyStmt f pre =
        Indent ++ "builder:Pad(" ++ toString f.padding ++ ")\n" ++ rest)
    ∧ genStructBuilder lineSD =
        "function Line.CreateLine(builder, start_x, start_y, start_z, _end_x, _end_y, _end_z)\n"
        ++ structBuilderBodySD lineSD "" ++ endBuilderBody
    ∧ structBuilderBodySD lineSD "" =
        "    builder:Prep(4, 24)\n    builder:Prep(4, 12)\n    builder:PrependFloat32(_end_z)\n    builder:PrependFloat32(_end_y)\n    builder:PrependFloat32(_end_x)\n    builder:Prep(4, 12)\n    builder:PrependFloat32(start_z)\n    builder:PrependFloat32(start_y)\n    builder:PrependFloat32(start_x)\n" := by
  refine ⟨argsFL_eq_leaf, structBuilderBodyFL_cons, ?_, by decide, by decide⟩
  intro f pre hpad
  refine ⟨(match f.ty with
    | .structT (.mk _ _ true sfs sbs sma) =>
        Indent ++ "builder:Prep(" ++ toString sma ++ ", "
        ++ toString sbs ++ ")\n"
        ++ structBuilderBodyFL sfs (pre ++ normalizedName f.name ++ "_")
    | _ =>
        Indent ++ "builder:Prepend" ++ genMethodTy f.ty ++ "("
        ++ pre ++ makeCamel (normalizedName f.name) false ++ ")\n"), ?_⟩
  rw [fieldBodyStmt, if_pos hpad]

/-- Claim C7, witness: the amended theorem applied to a field with one
byte of precomputed padding and to the `Vec3` field list. -/
theorem C7_struct_builder_witness :
    padBField.padding ≠ 0
    ∧ (∃ rest, fieldBodyStmt padBField "" =
        Indent ++ "builder:Pad(" ++ toString padBField.padding ++ ")\n"
        ++ rest)
    ∧ structBuilderArgsFL vec3.fields ""
        = joinArgs (leafParamsFL vec3.fields "") :=
  ⟨by decide,
   C7_struct_builder_amended.2.2.1 padBField "" (by decide),
   C7_struct_builder_amended.1 vec3.fields ""⟩

/-- Claim C9: for a union enum the emitted discriminant dispatch table
contains exactly one entry per enum value of nonzero discriminant — the
reserved discriminant 0 (`NONE`) is never entered. -/
theorem C9_union_dispatch_thm (e : EnumDefM) (h : e.isUnion = true) :
    genEnumDefObjectAPI e =
      "local dataTypeToClass = \x7b\x7d\n"
      ++ strJoin ((e.vals.filter (fun ev => ev.value != 0)).map
          unionDispatchLine)
      ++ makeCamel e.name true ++ ".__dataTypeToClass = dataTypeToClass\n\n"
      ++ makeCamel e.name true ++ ".Union = \x7b\n"
      ++ "\t__ctor = function (this)\n"
      ++ "\t\tthis.Type = 0\n"
      ++ "\t\tthis.Value = nil\n"
      ++ "\tend\n\x7d\n"
    ∧ (∀ ev ∈ e.vals, ev.value ≠ 0 →
        ev ∈ e.vals.filter (fun ev => ev.value != 0))
    ∧ (∀ ev ∈ e.vals, ev.value = 0 →
        ev ∉ e.vals.filter (fun ev => ev.value != 0)) := by
  refine ⟨?_, ?_, ?_⟩
  · rw [genEnumDefObjectAPI, dispatch_filterMap]
    simp [h]
  · intro ev hm hnz
    exact List.mem_filter.mpr ⟨hm, by simpa using hnz⟩
  · intro ev hm hz hcon
    have hne := (List.mem_filter.mp hcon).2
    simp [hz] at hne

/-- Claim C9, witness: the theorem applied to the `WeaponU` example —
no entry is emitted for discriminant 0, while each nonzero arm gets its
entry (a `require` for type arms, `string` for the string arm). -/
theorem C9_union_dispatch_witness :
    weaponUnion.isUnion = true
    ∧ strContains (genEnumDefObjectAPI weaponUnion)
        ("dataTypeToClass[0]") = false
    ∧ strContains (genEnumDefObjectAPI weaponUnion)
        ("dataTypeToClass[1] = require(\x27MyGame.Sword\x27)") = true
    ∧ strContains (genEnumDefObjectAPI weaponUnion)
        ("dataTypeToClass[3] = string") = true
    ∧ evNone ∉ weaponUnion.vals.filter (fun ev => ev.value != 0) :=
  ⟨rfl, by decide, by decide, by decide,
   (C9_union_dispatch_thm weaponUnion rfl).2.2 evNone (by decide) rfl⟩
